import Mathlib

/-!
Shallow embedding of the bytecode-interpreter core of this repository
(src/core/vm/vm.go): the interpreter loop `EVM.Run`, the per-opcode
gas/memory-cost computation `calculateGasAndSize`, the EIP-1283 storage
refund function `eip1283sstoreGas`, and the precompile dispatcher
`RunPrecompiled`.  Stack words, storage keys and storage values are
256-bit unsigned integers, embedded as `Nat` with explicit reductions
modulo `2 ^ 256` (and modulo `2 ^ 160` where the source converts a big
integer to a 20-byte address).  Refund counters may be adjusted
negatively, so they are embedded as `Int`.  Collaborators that are not
part of the repository sources (the state database, the gas table, the
opcode handlers, `callGas`, `Contract.UseGas`, `baseCheck`) are modelled
from the specification and are marked as such in their doc comments.
-/

namespace EVM

/-- Size of the 256-bit EVM word domain: stack values, storage keys and
storage values live below this bound; `common.BigToHash` reduces a big
integer into it. -/
def wordMod : Nat := 2 ^ 256

/-- Size of the 160-bit address domain; `common.BigToAddress` keeps only
the low 20 bytes (160 bits) of a big integer. -/
def addrMod : Nat := 2 ^ 160

/-- Association-list lookup, modelling a read from a Go map (and a
storage read from the state database, which yields the zero hash for an
absent slot via `Option.getD`). -/
def lookupAssoc : List (Nat × Nat) → Nat → Option Nat
  | [], _ => none
  | (k, v) :: rest, key => if k = key then some v else lookupAssoc rest key

/-- Modelled from the spec: `Database.SetState`, the storage-slot write
performed by the SSTORE opcode handler (the state backend is an external
collaborator, not under src/). -/
def insertAssoc : List (Nat × Nat) → Nat → Nat → List (Nat × Nat)
  | [], k, v => [(k, v)]
  | (k', v') :: rest, k, v =>
      if k' = k then (k, v) :: rest else (k', v') :: insertAssoc rest k v

/-- Post-EIP-1283 SSTORE gas and refund-delta computation, translated
from `eip1283sstoreGas` (src/core/vm/vm.go lines 435-486).  The result
is the deducted gas together with the (possibly negative) adjustment the
source applies to the refund counter. -/
def eip1283sstoreGas (originalValue currentValue newValue : Nat) : Nat × Int :=
  if newValue = currentValue then
    (200, 0)
  else
    if originalValue = currentValue then
      if originalValue = 0 then (20000, 0)
      else (5000, if newValue = 0 then (15000 : Int) else 0)
    else
      let r1 : Int :=
        if originalValue ≠ 0 then
          (if currentValue = 0 then (-15000 : Int) else 0) +
            (if newValue = 0 then (15000 : Int) else 0)
        else 0
      let r2 : Int :=
        if originalValue = newValue then
          (if originalValue = 0 then (19800 : Int) else (4800 : Int))
        else 0
      (200, r1 + r2)

/-- Pre-EIP-1283 SSTORE gas and refund, translated from the not-EIP1283
branch of `calculateGasAndSize` (src/core/vm/vm.go lines 296-311).  The
new value is reduced modulo `2 ^ 256` because the source tests
`common.EmptyHash(common.BigToHash(newValue))`. -/
def sstoreGasPre1283 (currentValue newValue : Nat) : Nat × Nat :=
  if currentValue = 0 ∧ ¬ newValue % wordMod = 0 then (20000, 0)
  else if ¬ currentValue = 0 ∧ newValue % wordMod = 0 then (5000, 15000)
  else (5000, 0)

/-- EIP-1283 SSTORE gas step with original-value tracking, translated
from the IsEIP1283 branch of `calculateGasAndSize` (src/core/vm/vm.go
lines 312-322).  The current value is read from storage under the full
256-bit key (`common.BigToHash(storageLoc)`), but the original-value map
`originalSStoreMap` is keyed by `common.BigToAddress(storageLoc)`, i.e.
by the low 160 bits of the storage key.  Returns (gas, refund delta,
updated original-value map). -/
def sstoreGasEIP1283 (storage om : List (Nat × Nat)) (storageLoc newValue : Nat) :
    Nat × Int × List (Nat × Nat) :=
  let currentValue := (lookupAssoc storage (storageLoc % wordMod)).getD 0
  let loc := storageLoc % addrMod
  match lookupAssoc om loc with
  | some originalValue =>
      let gr := eip1283sstoreGas originalValue currentValue newValue
      (gr.1, gr.2, om)
  | none =>
      let gr := eip1283sstoreGas currentValue currentValue newValue
      (gr.1, gr.2, (loc, currentValue) :: om)

/-- Modelled from the spec: `callGas` (gas.go, not under src/), the
63/64 call-gas forwarding rule of spec section 4.7 — given the
contract's remaining gas after the base call cost is charged and the
requested gas from the stack, cap the forwarded amount at
`availableGas * 63 / 64`. -/
def callGas (availableGas requestedGas : Nat) : Nat :=
  if requestedGas > availableGas * 63 / 64 then availableGas * 63 / 64
  else requestedGas

/-- Stack write-back and cost addition for the forwarded call gas,
translated from `calculateGasAndSize` (src/core/vm/vm.go lines 391-399
and 411-418): the capped amount replaces the topmost stack slot
(`stack.data[stack.len()-1]`, the head of the list here) and is added to
the gas charged to the caller.  `none` models the empty-stack case in
which the source's slice index would fault (unreachable after
`baseCheck`). -/
def forwardCallGas (availableGas gasSoFar : Nat) (stk : List Nat) :
    Option (List Nat × Nat) :=
  match stk with
  | requested :: rest =>
      some (callGas availableGas requested :: rest,
        gasSoFar + callGas availableGas requested)
  | [] => none

/-- Opcode subset of the interpreter model, covering the opcodes the
claims exercise; `INVALID` stands for any opcode whose jump-table entry
is not valid (src/core/vm/vm.go lines 204-205). -/
inductive Op where
  | STOP
  | ADD
  | SSTORE
  | CALL
  | RETURN
  | REVERT
  | INVALID
  deriving DecidableEq, Repr

/-- Modelled from the spec: `OpCode.IsStateModifying` (opcodes.go, not
under src/).  Per spec section 4.6 (b) the write-protection check covers
state-modifying opcodes, while CALL is handled by a separate
nonzero-value test, so CALL itself is not in the state-modifying set;
of the modelled opcode subset only SSTORE modifies state. -/
def Op.isStateModifying : Op → Bool
  | .SSTORE => true
  | _ => false

/-- Modelled from the spec: `OpCode.IsReturning` (opcodes.go, not under
src/).  Per spec section 4.6 the return-data buffer is set only by
opcodes flagged as returning; of the modelled subset the flagged opcode
is CALL (RETURN and REVERT leave the frame before that point in the
loop). -/
def Op.isReturning : Op → Bool
  | .CALL => true
  | _ => false

/-- Frame errors returned by the interpreter loop, from the error paths
of `EVM.Run` and `calculateGasAndSize` (src/core/vm/vm.go).  A REVERT is
not listed here because the source returns it as a distinct outcome
carrying output bytes (`ErrExecutionReverted`). -/
inductive VMErr where
  | outOfGas
  | writeProtection
  | stackUnderflow
  | invalidOpcode
  deriving DecidableEq, Repr

/-- Combined environment-and-frame state of the interpreter model.  The
stack is a list of 256-bit words whose head is the top
(`stack.data[stack.len()-1]` in the source); `storage` is the state
database's storage of the executing contract, keyed by full 256-bit
keys; `originalMap` is the per-frame `originalSStoreMap`, keyed by the
low 160 bits of a storage key as in the source; `accounts` lists the
addresses that exist in the state database; `ecip1045b` and `eip1283`
are the fork-rule queries for the current block number. -/
structure VMState where
  depth : Nat
  readOnly : Bool
  ecip1045b : Bool
  eip1283 : Bool
  gas : Nat
  pc : Nat
  stack : List Nat
  mem : List Nat
  storage : List (Nat × Nat)
  originalMap : List (Nat × Nat)
  refund : Int
  returnData : List Nat
  accounts : List Nat
  code : List Op
  deriving DecidableEq, Repr

/-- Readonly-mode state-modification check, translated from `EVM.Run`
(src/core/vm/vm.go lines 136-140):
`IsECIP1045B && IsReadOnly && (op.IsStateModifying() || op == CALL &&
stack.data[stack.len()-3].BitLen() > 0)` with Go short-circuit
evaluation.  `stack.data[stack.len()-3]` is the third item from the top,
list index 2 here; `none` models the Go runtime panic (slice index out
of range) raised when the stack holds fewer than 3 items at that
access. -/
def checkStateMod (ecip1045b readOnly : Bool) (op : Op) (stk : List Nat) :
    Option Bool :=
  if ecip1045b && readOnly then
    if op.isStateModifying then some true
    else if op = Op.CALL then
      match stk.get? 2 with
      | some v => some (decide (¬ v = 0))
      | none => none
    else some false
  else some false

/-- Modelled from the spec: `baseCheck` (gas.go, not under src/) —
per-opcode required operand counts and constant base step costs (spec
section 4.4: fixed-cost opcodes charge a small constant step cost and
fail with StackUnderflow when fewer operands are present).  Opcodes
whose gas is fully determined in the `calculateGasAndSize` switch carry
base cost 0 here, since the source overwrites the gas for them. -/
def opBase : Op → Nat × Nat
  | .STOP => (0, 0)
  | .ADD => (2, 3)
  | .SSTORE => (2, 0)
  | .CALL => (7, 0)
  | .RETURN => (2, 0)
  | .REVERT => (2, 0)
  | .INVALID => (0, 0)

/-- Modelled from the spec: the operand-count half of `baseCheck`. -/
def baseCheck (op : Op) (stk : List Nat) : Except VMErr Nat :=
  if stk.length < (opBase op).1 then .error .stackUnderflow
  else .ok (opBase op).2

/-- Modelled from the spec: `calcMemSize` / `requiredSize` (section
4.2) — the byte size the memory must grow to for an access at `off` of
`len` bytes, rounded up to a whole 32-byte word; a zero-length access
requires no growth. -/
def requiredSize (off len : Nat) : Nat :=
  if len = 0 then 0 else (off + len + 31) / 32 * 32

/-- Modelled from the spec: the quadratic memory-expansion surcharge
(`quadMemGas`, gas.go, not under src/) — the fee for a memory of `w`
words is `w + w * w / 512` and only the increment over the already-paid
fee of the current size is charged. -/
def memFee (words : Nat) : Nat := words + words * words / 512

/-- Modelled from the spec: incremental memory-expansion gas from the
current memory byte size to the requested byte size. -/
def memExpandGas (memLen newSize : Nat) : Nat :=
  let newWords := (newSize + 31) / 32
  let curWords := (memLen + 31) / 32
  if newWords ≤ curWords then 0 else memFee newWords - memFee curWords

/-- Modelled from the spec: `Memory.Resize` — grow (never shrink) the
byte memory to the given size, filling new bytes with zero. -/
def memResize (mem : List Nat) (size : Nat) : List Nat :=
  if mem.length < size then mem ++ List.replicate (size - mem.length) 0 else mem

/-- Modelled from the spec: `Memory.GetPtr` — read `len` bytes at `off`
from an already-resized memory. -/
def memRead (mem : List Nat) (off len : Nat) : List Nat :=
  (mem.drop off).take len

/-- Modelled from the spec: `Memory.Set` — write the given bytes at
`off` into an already-resized memory. -/
def memWrite (mem : List Nat) (off : Nat) (bs : List Nat) : List Nat :=
  mem.take off ++ bs ++ mem.drop (off + bs.length)

/-- Modelled from the spec: the base call cost `gasTable.Calls` — a
fork-versioned constant of the externally configured GasTable, fixed
here to one configuration. -/
def gasTableCalls : Nat := 40

/-- Per-opcode gas and new-memory-size computation, translated from
`calculateGasAndSize` (src/core/vm/vm.go lines 218-423) restricted to
the modelled opcode subset.  Returns the gas to charge, the new memory
byte size, and the state updated with the side effects the source
applies inside the cost computation (refund registration, original-map
population, and the forwarded-call-gas stack write-back); gas itself is
not yet deducted. -/
def calcGasAndSize (s : VMState) (op : Op) : Except VMErr (Nat × Nat × VMState) :=
  match baseCheck op s.stack with
  | .error e => .error e
  | .ok baseGas =>
  match op with
  | .SSTORE =>
      if s.stack.length < 2 then .error .stackUnderflow
      else
        let storageLoc := s.stack.getD 0 0
        let newValue := s.stack.getD 1 0
        if s.eip1283 = false then
          let gr := sstoreGasPre1283
            ((lookupAssoc s.storage (storageLoc % wordMod)).getD 0) newValue
          .ok (gr.1, 0, { s with refund := s.refund + (gr.2 : Int) })
        else
          let gro := sstoreGasEIP1283 s.storage s.originalMap storageLoc newValue
          .ok (gro.1, 0,
            { s with refund := s.refund + gro.2.1, originalMap := gro.2.2 })
  | .CALL =>
      let g1 :=
        if (s.accounts.contains (s.stack.getD 1 0 % addrMod)) then gasTableCalls
        else gasTableCalls + 25000
      let g2 := if s.stack.getD 2 0 = 0 then g1 else g1 + 9000
      let x := requiredSize (s.stack.getD 5 0) (s.stack.getD 6 0)
      let y := requiredSize (s.stack.getD 3 0) (s.stack.getD 4 0)
      let msize := max x y
      let g3 := g2 + memExpandGas s.mem.length msize
      match forwardCallGas (s.gas - g3) g3 s.stack with
      | some (stk', totalGas) => .ok (totalGas, msize, { s with stack := stk' })
      | none => .error .stackUnderflow
  | .RETURN =>
      let msize := requiredSize (s.stack.getD 0 0) (s.stack.getD 1 0)
      .ok (baseGas + memExpandGas s.mem.length msize, msize, s)
  | .REVERT =>
      let msize := requiredSize (s.stack.getD 0 0) (s.stack.getD 1 0)
      .ok (baseGas + memExpandGas s.mem.length msize, msize, s)
  | _ => .ok (baseGas, 0, s)

/-- Modelled from the spec: `Contract.UseGas` (contract.go, not under
src/) — the atomic gas charge: the whole cost is deducted when it fits
in the remaining budget and `none` is returned otherwise (the caller
then fails the frame with OutOfGas, consuming all remaining gas, per
spec sections 3 and 7). -/
def useGas (gas cost : Nat) : Option Nat :=
  if cost ≤ gas then some (gas - cost) else none

/-- Outcome of one iteration of the interpreter loop. -/
inductive StepRes where
  | next (s : VMState)
  | halt (ret : List Nat) (s : VMState)
  | revert (ret : List Nat) (s : VMState)
  | fail (e : VMErr) (s : VMState)
  | fault (s : VMState)
  deriving DecidableEq, Repr

/-- State carried by a step outcome. -/
def StepRes.state : StepRes → VMState
  | .next s => s
  | .halt _ s => s
  | .revert _ s => s
  | .fail _ s => s
  | .fault s => s

/-- End-of-iteration bookkeeping of the interpreter loop, translated
from `EVM.Run` (src/core/vm/vm.go lines 208-212): when the opcode is
flagged as returning, the loop stores the frame's named return value
`ret` into the environment's return-data buffer — and `ret` is still
`nil` at that point, because the opcodes that assign a return value
leave the loop before reaching this line — then the program counter is
advanced. -/
def advance (op : Op) (s : VMState) : VMState :=
  let s1 := if op.isReturning then { s with returnData := [] } else s
  { s1 with pc := s1.pc + 1 }

/-- Opcode dispatch, translated from `EVM.Run` (src/core/vm/vm.go lines
156-206) for the modelled subset.  The handlers for ADD, SSTORE and
CALL are not under src/ and are modelled from the spec: ADD pops two
words and pushes their wraparound sum; SSTORE pops key and value and
writes the storage slot under the full 256-bit key
(`common.BigToHash`); CALL pops its seven operands, writes the
sub-call's output `callRes` (truncated to the output size) into memory
and pushes a success flag, leaving depth untouched because the nested
frame restores it.  `fault` models a Go panic from popping a short stack
(unreachable after `baseCheck`). -/
def execOp (callRes : List Nat) (op : Op) (s : VMState) : StepRes :=
  match op with
  | .STOP => .halt [] s
  | .ADD =>
      match s.stack with
      | x :: y :: rest =>
          .next (advance op { s with stack := (x + y) % wordMod :: rest })
      | _ => .fault s
  | .SSTORE =>
      match s.stack with
      | loc :: nv :: rest =>
          .next (advance op
            { s with stack := rest,
                     storage := insertAssoc s.storage (loc % wordMod) nv })
      | _ => .fault s
  | .CALL =>
      match s.stack with
      | _g :: _to :: _v :: _inOff :: _inSize :: outOff :: outSize :: rest =>
          .next (advance op
            { s with stack := 1 :: rest,
                     mem := memWrite s.mem outOff (callRes.take outSize) })
      | _ => .fault s
  | .RETURN =>
      match s.stack with
      | off :: len :: rest => .halt (memRead s.mem off len) { s with stack := rest }
      | _ => .fault s
  | .REVERT =>
      match s.stack with
      | off :: len :: rest => .revert (memRead s.mem off len) { s with stack := rest }
      | _ => .fault s
  | .INVALID => .fail .invalidOpcode s

/-- Opcode fetch at the current program counter, translated from
`contract.GetOp(pc)`: past the end of the code the fetched byte is 0,
i.e. STOP. -/
def fetch (s : VMState) : Op :=
  s.code.getD s.pc Op.STOP

/-- One iteration of the interpreter loop, translated from the body of
the `for` loop of `EVM.Run` (src/core/vm/vm.go lines 127-213), in the
source's order: fetch the opcode, run the readonly-mode check, compute
gas and memory size, charge the gas (failing with OutOfGas and consuming
all remaining gas when the charge does not fit), resize the memory, then
dispatch.  `callRes` is the output of the nested call frame when the
opcode is CALL. -/
def step (callRes : List Nat) (s : VMState) : StepRes :=
  let op := fetch s
  match checkStateMod s.ecip1045b s.readOnly op s.stack with
  | none => .fault s
  | some true => .fail .writeProtection s
  | some false =>
      match calcGasAndSize s op with
      | .error e => .fail e s
      | .ok (cost, msize, s1) =>
          match useGas s1.gas cost with
          | none => .fail .outOfGas { s1 with gas := 0 }
          | some g' =>
              execOp callRes op { s1 with gas := g', mem := memResize s1.mem msize }

/-- Terminal outcome of a frame. -/
inductive LoopResult where
  | halt (ret : List Nat) (s : VMState)
  | revert (ret : List Nat) (s : VMState)
  | fail (e : VMErr) (s : VMState)
  | fault (s : VMState)
  | fuelOut (s : VMState)
  deriving DecidableEq, Repr

/-- State carried by a terminal outcome. -/
def LoopResult.state : LoopResult → VMState
  | .halt _ s => s
  | .revert _ s => s
  | .fail _ s => s
  | .fault s => s
  | .fuelOut s => s

/-- Map a function over the state of a terminal outcome (used for the
deferred depth decrement of `EVM.Run`). -/
def LoopResult.mapState (f : VMState → VMState) : LoopResult → LoopResult
  | .halt r s => .halt r (f s)
  | .revert r s => .revert r (f s)
  | .fail e s => .fail e (f s)
  | .fault s => .fault (f s)
  | .fuelOut s => .fuelOut (f s)

/-- Fuel-bounded interpreter loop, translated from the `for` loop of
`EVM.Run` (src/core/vm/vm.go lines 127-213); `fuelOut` marks an
execution that did not terminate within the given fuel. -/
def runLoop (callRes : List Nat) : Nat → VMState → LoopResult
  | 0, s => .fuelOut s
  | n + 1, s =>
      match step callRes s with
      | .next s' => runLoop callRes n s'
      | .halt r s' => .halt r s'
      | .revert r s' => .revert r s'
      | .fail e s' => .fail e s'
      | .fault s' => .fault s'

/-- Lookup of a precompiled contract, modelling the fork-selected
`precompiles` map of `EVM.Run` (src/core/vm/vm.go lines 67-75): each
entry carries the precompile's gas price and output for the input at
hand (`p.Gas(input)` and `p.Call(input)`, precompile implementations
being external collaborators). -/
def lookupPrec : List (Nat × Nat × List Nat) → Nat → Option (Nat × List Nat)
  | [], _ => none
  | (a, g, out) :: rest, addr =>
      if a = addr then some (g, out) else lookupPrec rest addr

/-- Frame execution, translated from `EVM.Run` (src/core/vm/vm.go lines
61-214): increment the environment depth, clear the return-data buffer,
dispatch to a precompile when the code address is one (charging its gas
via the atomic `useGas`, per `RunPrecompiled`, lines 426-433), return
immediately on empty code, otherwise run the interpreter loop; the
deferred depth decrement is applied to the state of every outcome. -/
def runVM (callRes : List Nat) (fuel : Nat) (prec : List (Nat × Nat × List Nat))
    (codeAddr : Option Nat) (s0 : VMState) : LoopResult :=
  let s1 := { s0 with depth := s0.depth + 1, returnData := [] }
  let body : LoopResult :=
    match codeAddr with
    | some a =>
        match lookupPrec prec a with
        | some (g, out) =>
            match useGas s1.gas g with
            | some g' => .halt out { s1 with gas := g' }
            | none => .fail .outOfGas { s1 with gas := 0 }
        | none =>
            if s1.code = [] then .halt [] s1 else runLoop callRes fuel s1
    | none =>
        if s1.code = [] then .halt [] s1 else runLoop callRes fuel s1
  body.mapState (fun s => { s with depth := s.depth - 1 })

/-- Transaction-level state relevant to the SELFDESTRUCT refund: the
set of contract addresses that have self-destructed so far in the
transaction (the state database's `HasSuicided` flag) and the refund
counter. -/
structure TxState where
  suicided : List Nat
  refund : Nat
  deriving DecidableEq, Repr

/-- Membership test of the self-destructed set, modelling
`statedb.HasSuicided`. -/
def hasSuicidedList : List Nat → Nat → Bool
  | [], _ => false
  | b :: rest, a => a = b || hasSuicidedList rest a

/-- The state database's `HasSuicided` query for a contract address. -/
def TxState.hasSuicided (t : TxState) (a : Nat) : Bool :=
  hasSuicidedList t.suicided a

/-- Refund half of the SUICIDE branch of `calculateGasAndSize`
(src/core/vm/vm.go lines 239-241): a 24000 refund is added when the
executing contract has not already self-destructed. -/
def suicideRefundGasStep (t : TxState) (selfAddr : Nat) : TxState :=
  if t.hasSuicided selfAddr then t else { t with refund := t.refund + 24000 }

/-- Modelled from the spec: `opSuicide` (not under src/) registers the
executing contract as self-destructed in the state database (spec
section 4.4: a one-time refund the first time a given contract
self-destructs in a transaction). -/
def opSuicideMark (t : TxState) (selfAddr : Nat) : TxState :=
  { t with suicided := selfAddr :: t.suicided }

/-- One completed SUICIDE step of a contract: the gas/refund computation
followed by the handler's self-destruct registration, in the source's
order (cost first, dispatch after). -/
def suicideStep (t : TxState) (selfAddr : Nat) : TxState :=
  opSuicideMark (suicideRefundGasStep t selfAddr) selfAddr

/-- Transaction trace of completed SUICIDE steps, one per executing
contract address in the list. -/
def runSuicides (t : TxState) : List Nat → TxState
  | [] => t
  | a :: rest => runSuicides (suicideStep t a) rest

/-- Ghost instrumentation of `runSuicides`: the addresses for which the
trace actually added the 24000 refund, in order. -/
def refundGrants (t : TxState) : List Nat → List Nat
  | [] => []
  | a :: rest =>
      (if t.hasSuicided a then [] else [a]) ++ refundGrants (suicideStep t a) rest

/-- Recogniser of a WriteProtectionViolation step outcome. -/
def failsWriteProtection : StepRes → Bool
  | .fail .writeProtection _ => true
  | _ => false

/-- Concrete frame about to execute ADD with only 2 gas remaining (ADD
costs 3), exercising the out-of-gas path of the charge. -/
def oogFrame : VMState :=
  { depth := 0, readOnly := false, ecip1045b := false, eip1283 := false,
    gas := 2, pc := 0, stack := [1, 2], mem := [], storage := [],
    originalMap := [], refund := 0, returnData := [], accounts := [],
    code := [Op.ADD] }

/-- Concrete read-only frame (fork active) about to execute SSTORE. -/
def roFrame : VMState :=
  { depth := 0, readOnly := true, ecip1045b := true, eip1283 := true,
    gas := 100000, pc := 0, stack := [0, 5], mem := [], storage := [],
    originalMap := [], refund := 0, returnData := [], accounts := [],
    code := [Op.SSTORE] }

/-- Concrete frame whose environment reports the read-only flag set
while the ECIP1045B rule set is not active, about to execute SSTORE. -/
def roNoForkFrame : VMState :=
  { depth := 0, readOnly := true, ecip1045b := false, eip1283 := false,
    gas := 0, pc := 0, stack := [0, 5], mem := [], storage := [],
    originalMap := [], refund := 0, returnData := [], accounts := [],
    code := [Op.SSTORE] }

/-- Concrete frame about to execute CALL with ample gas; the return-data
buffer holds leftover bytes so that the loop's write to it is visible. -/
def callFrame : VMState :=
  { depth := 0, readOnly := false, ecip1045b := false, eip1283 := false,
    gas := 100000, pc := 0, stack := [1000, 5, 0, 0, 0, 0, 0], mem := [],
    storage := [], originalMap := [], refund := 0, returnData := [9],
    accounts := [], code := [Op.CALL] }

end EVM

namespace EVM

/-- Claim C1: the post-EIP-1283 SSTORE gas/refund computation returns
cost 200 and refund 0 when new = current; otherwise when original =
current, cost 20000 if original = 0, else cost 5000 with a 15000 refund
iff new = 0; otherwise (dirty slot) cost 200 with refund
-15000 when original ≠ 0 and current = 0, +15000 when original ≠ 0 and
new = 0, +19800 when original = new = 0, +4800 when original = new ≠ 0;
in particular (0,0,5) gives (20000, 0) and (5,3,5) gives cost 200 with
refund 4800. -/
theorem c1_eip1283_sstore_gas (o c n : Nat) :
    (n = c → eip1283sstoreGas o c n = (200, 0)) ∧
    (¬ n = c → o = c → o = 0 → eip1283sstoreGas o c n = (20000, 0)) ∧
    (¬ n = c → o = c → ¬ o = 0 →
      eip1283sstoreGas o c n = (5000, if n = 0 then (15000 : Int) else 0)) ∧
    (¬ n = c → ¬ o = c →
      eip1283sstoreGas o c n =
        (200,
          (if ¬ o = 0 ∧ c = 0 then (-15000 : Int) else 0) +
            (if ¬ o = 0 ∧ n = 0 then (15000 : Int) else 0) +
            (if o = n then (if o = 0 then (19800 : Int) else (4800 : Int))
              else 0))) ∧
    eip1283sstoreGas 0 0 5 = (20000, 0) ∧
    eip1283sstoreGas 5 3 5 = (200, 4800) := by
  refine ⟨?_, ?_, ?_, ?_, by decide, by decide⟩
  · intro h; simp [eip1283sstoreGas, h]
  · intro h1 h2 h3; subst h2; subst h3; simp [eip1283sstoreGas, h1]
  · intro h1 h2 h3; subst h2; simp [eip1283sstoreGas, h1, h3]
  · intro h1 h2
    simp only [eip1283sstoreGas, if_neg h1, if_neg h2]
    by_cases ho : o = 0 <;> by_cases hc : c = 0 <;> by_cases hn : n = 0 <;>
      by_cases hon : o = n <;> simp [ho, hc, hn, hon]

/-- Witness for C1, instantiated at the triple (5, 5, 0). -/
theorem c1_eip1283_sstore_gas_witness :
    eip1283sstoreGas 5 5 0 = (5000, 15000) := by
  have h := (c1_eip1283_sstore_gas 5 5 0).2.2.1 (by decide) rfl (by decide)
  simpa using h

/-- Claim C2: if the requested gas exceeds `availableGas * 63 / 64` the
forwarded amount is capped to that value, otherwise it equals the
requested amount exactly; the forwarded amount replaces the topmost
stack slot and is added to the gas charged to the caller; in particular
with availableGas 6300000 a request of 7000000 forwards
`6300000 * 63 / 64` and a request of 1000 forwards exactly 1000. -/
theorem c2_call_gas_forwarding (availableGas gasSoFar requested : Nat)
    (rest : List Nat) :
    (availableGas * 63 / 64 < requested →
      forwardCallGas availableGas gasSoFar (requested :: rest) =
        some (availableGas * 63 / 64 :: rest,
          gasSoFar + availableGas * 63 / 64)) ∧
    (requested ≤ availableGas * 63 / 64 →
      forwardCallGas availableGas gasSoFar (requested :: rest) =
        some (requested :: rest, gasSoFar + requested)) ∧
    callGas 6300000 7000000 = 6300000 * 63 / 64 ∧
    callGas 6300000 1000 = 1000 := by
  refine ⟨?_, ?_, by decide, by decide⟩
  · intro h; simp [forwardCallGas, callGas, h]
  · intro h; simp [forwardCallGas, callGas, Nat.not_lt.mpr h]

/-- Witness for C2, instantiated at availableGas 6300000 and requested
gas 7000000. -/
theorem c2_call_gas_forwarding_witness :
    forwardCallGas 6300000 0 [7000000] =
      some ([6300000 * 63 / 64], 0 + 6300000 * 63 / 64) :=
  (c2_call_gas_forwarding 6300000 0 7000000 []).1 (by decide)

/-- Claim C7: before the EIP-1283 fork, SSTORE gas depends only on the
(current, new) transition: zero to nonzero costs 20000, nonzero to zero
costs 5000 with a 15000 refund, any other transition costs 5000, and a
refund is granted only on the nonzero-to-zero transition. -/
theorem c7_pre1283_sstore_gas (c n : Nat) (hn : n < wordMod) :
    (c = 0 → ¬ n = 0 → sstoreGasPre1283 c n = (20000, 0)) ∧
    (¬ c = 0 → n = 0 → sstoreGasPre1283 c n = (5000, 15000)) ∧
    (¬ c = 0 → ¬ n = 0 → sstoreGasPre1283 c n = (5000, 0)) ∧
    (c = 0 → n = 0 → sstoreGasPre1283 c n = (5000, 0)) ∧
    (¬ (sstoreGasPre1283 c n).2 = 0 → ¬ c = 0 ∧ n = 0) := by
  have hmod : n % wordMod = n := Nat.mod_eq_of_lt hn
  by_cases hc : c = 0 <;> by_cases hn0 : n = 0 <;>
    simp [sstoreGasPre1283, hmod, hc, hn0]

/-- Witness for C7, instantiated at the nonzero-to-zero transition
(current 5, new 0). -/
theorem c7_pre1283_sstore_gas_witness : sstoreGasPre1283 5 0 = (5000, 15000) :=
  (c7_pre1283_sstore_gas 5 0 (by decide)).2.1 (by decide) rfl

/-- Claim C3 fails on the code: the original-value map is keyed by the
low 160 bits of the storage key (`common.BigToAddress(storageLoc)`), so
the distinct 256-bit keys 1 and 2^160 + 1 share one entry.  With storage
holding 7 at key 1 and 9 at key 2^160 + 1, an SSTORE(1, 5) followed by
an SSTORE(2^160 + 1, 0) makes the second refund computation use
original value 7 — the value recorded by the first SSTORE for the other
key — and charge 200 gas, whereas the value observed at the first SSTORE
to key 2^160 + 1 is 9, under which the same computation charges 5000. -/
theorem c3_original_map_collision :
    (sstoreGasEIP1283 [(1, 7), (2 ^ 160 + 1, 9)] [] 1 5).2.2 = [(1, 7)] ∧
    (sstoreGasEIP1283 [(1, 7), (2 ^ 160 + 1, 9)]
        (sstoreGasEIP1283 [(1, 7), (2 ^ 160 + 1, 9)] [] 1 5).2.2
        (2 ^ 160 + 1) 0).1 = 200 ∧
    (eip1283sstoreGas 9 9 0).1 = 5000 ∧
    ¬ (2 ^ 160 + 1 : Nat) = 1 := by
  refine ⟨by decide, by decide, by decide, by norm_num⟩

/-- Claim C10 fails on the code: the readonly-mode check of `EVM.Run`
evaluates `stack.data[stack.len()-3]` for a CALL opcode before any
stack-depth validation runs, so with fewer than 3 stack items the access
is out of bounds (a Go runtime panic, modelled as `none`). -/
theorem c10_readonly_check_faults :
    checkStateMod true true Op.CALL [] = none ∧
    Op.isStateModifying Op.CALL = false ∧
    ([] : List Nat).length < 3 := by
  exact ⟨rfl, rfl, by decide⟩

/-- Claim C5, amended: when the ECIP1045B rule set is active and the
environment's read-only flag is set, a step fetching a state-modifying
opcode, or CALL with a nonzero value operand present on the stack,
terminates the frame with WriteProtectionViolation and leaves the state
completely untouched — before the gas cost is computed, before gas is
charged, and before any state mutation (including refund registration)
is applied. -/
theorem c5_write_protection (callRes : List Nat) (s : VMState)
    (hfork : s.ecip1045b = true) (hro : s.readOnly = true)
    (hop : (fetch s).isStateModifying = true ∨
      (fetch s = Op.CALL ∧ ∃ v, s.stack.get? 2 = some v ∧ ¬ v = 0)) :
    step callRes s = .fail .writeProtection s := by
  have hchk : checkStateMod s.ecip1045b s.readOnly (fetch s) s.stack
      = some true := by
    rcases hop with h | ⟨hc, v, hv, hnz⟩
    · simp [checkStateMod, hfork, hro, h]
    · rw [List.get?_eq_getElem?] at hv
      simp [checkStateMod, hfork, hro, hc, hv, hnz, Op.isStateModifying]
  simp only [step, hchk]

/-- Witness for C5 at a concrete read-only frame about to execute
SSTORE. -/
theorem c5_write_protection_witness :
    step [] roFrame = .fail .writeProtection roFrame :=
  c5_write_protection [] roFrame rfl rfl (Or.inl rfl)

/-- Counterexample to C5 as stated: a frame whose environment reports
the read-only flag set but for which the ECIP1045B rule set is not
active executes SSTORE without a WriteProtectionViolation (here it
proceeds to the gas charge and fails with OutOfGas instead), because the
source guards the check with `IsECIP1045B(BlockNumber)`. -/
theorem c5_counterexample :
    roNoForkFrame.readOnly = true ∧
    (fetch roNoForkFrame).isStateModifying = true ∧
    failsWriteProtection (step [] roNoForkFrame) = false := by
  refine ⟨rfl, rfl, by decide⟩

/-- Claim C4: the gas charge is atomic — when the computed cost exceeds
the remaining gas the step (and hence the loop) terminates the frame
with OutOfGas, the remaining gas is fully consumed (set to zero, never a
partial deduction) and the opcode handler is not dispatched; when the
cost fits, the handler is dispatched on a state from which exactly the
cost has been deducted; and a successful charge always deducts exactly
the cost, so gas remaining never goes negative. -/
theorem c4_out_of_gas_atomic (callRes : List Nat) (s s1 : VMState)
    (cost msize : Nat)
    (hchk : checkStateMod s.ecip1045b s.readOnly (fetch s) s.stack
      = some false)
    (hcalc : calcGasAndSize s (fetch s) = Except.ok (cost, msize, s1)) :
    (s1.gas < cost →
      step callRes s = .fail .outOfGas { s1 with gas := 0 }) ∧
    (s1.gas < cost → ∀ fuel,
      runLoop callRes (fuel + 1) s = .fail .outOfGas { s1 with gas := 0 }) ∧
    (cost ≤ s1.gas →
      step callRes s =
        execOp callRes (fetch s)
          { s1 with gas := s1.gas - cost, mem := memResize s1.mem msize }) ∧
    (∀ g c g', useGas g c = some g' → g' + c = g) := by
  have hfail : s1.gas < cost →
      step callRes s = .fail .outOfGas { s1 with gas := 0 } := by
    intro hlt
    have hu : useGas s1.gas cost = none := by
      simp [useGas, Nat.not_le.mpr hlt]
    simp only [step, hchk, hcalc, hu]
  refine ⟨hfail, ?_, ?_, ?_⟩
  · intro hlt fuel
    simp only [runLoop, hfail hlt]
  · intro hle
    have hu : useGas s1.gas cost = some (s1.gas - cost) := by
      simp [useGas, hle]
    simp only [step, hchk, hcalc, hu]
  · intro g c g' h
    unfold useGas at h
    split at h
    · cases h; omega
    · cases h

/-- Witness for C4 at a concrete frame executing ADD (cost 3) with only
2 gas remaining. -/
theorem c4_out_of_gas_atomic_witness :
    step [] oogFrame = .fail .outOfGas { oogFrame with gas := 0 } :=
  (c4_out_of_gas_atomic [] oogFrame oogFrame 3 0 rfl rfl).1 (by decide)

/-- The cost computation never changes the environment depth: its side
effects touch only the refund counter, the original-value map and the
stack. -/
theorem calcGasAndSize_depth (s : VMState) (op : Op) (cost msize : Nat)
    (s1 : VMState) (h : calcGasAndSize s op = Except.ok (cost, msize, s1)) :
    s1.depth = s.depth := by
  unfold calcGasAndSize at h
  split at h
  · simp at h
  · cases op <;> simp only [] at h
    case SSTORE =>
      split at h
      · simp at h
      · split at h <;> (simp at h; obtain ⟨-, -, h3⟩ := h; subst h3; rfl)
    case CALL =>
      split at h
      · simp at h
        obtain ⟨-, -, h3⟩ := h
        subst h3
        rfl
      · simp at h
    all_goals (simp at h; obtain ⟨-, -, h3⟩ := h; subst h3; rfl)

/-- Opcode dispatch never changes the environment depth (the nested
frame of a CALL restores it, see the C6 theorem). -/
theorem execOp_depth (callRes : List Nat) (op : Op) (s : VMState) :
    (execOp callRes op s).state.depth = s.depth := by
  cases op <;> simp only [execOp] <;> (try split) <;>
    simp [StepRes.state, advance, Op.isReturning]

/-- One interpreter step never changes the environment depth. -/
theorem step_depth (callRes : List Nat) (s : VMState) :
    (step callRes s).state.depth = s.depth := by
  simp only [step]
  split
  · rfl
  · rfl
  · split
    · rfl
    · next cost msize s1 hcalc =>
        have hd := calcGasAndSize_depth s (fetch s) cost msize s1 hcalc
        split
        · simpa [StepRes.state] using hd
        · rw [execOp_depth]
          simpa using hd

/-- The interpreter loop never changes the environment depth. -/
theorem runLoop_depth (callRes : List Nat) (fuel : Nat) (s : VMState) :
    ((runLoop callRes fuel s).state).depth = s.depth := by
  induction fuel generalizing s with
  | zero => rfl
  | succ n ih =>
      unfold runLoop
      have hs := step_depth callRes s
      split <;> rename_i heq <;> rw [heq] at hs
      · exact (ih _).trans hs
      all_goals exact hs

/-- Mapping a function over the state of a terminal outcome acts on the
carried state. -/
theorem LoopResult.mapState_state (f : VMState → VMState) (r : LoopResult) :
    (LoopResult.mapState f r).state = f r.state := by
  cases r <;> rfl

/-- Claim C6: for every invocation of the frame execution and every
terminal outcome (normal stop, RETURN, REVERT, precompile dispatch,
empty code, or any fatal error — and fuel exhaustion in the model), the
environment depth after the frame returns equals the depth before it:
the entry increment is undone by the deferred decrement, and the
interpreter loop itself never changes the depth. -/
theorem c6_depth_restored (callRes : List Nat) (fuel : Nat)
    (prec : List (Nat × Nat × List Nat)) (codeAddr : Option Nat)
    (s : VMState) :
    ((runVM callRes fuel prec codeAddr s).state).depth = s.depth ∧
    ((runLoop callRes fuel s).state).depth = s.depth := by
  refine ⟨?_, runLoop_depth callRes fuel s⟩
  simp only [runVM, LoopResult.mapState_state]
  repeat' split
  all_goals try rw [runLoop_depth]
  all_goals simp [LoopResult.state]

/-- The refund half of the SUICIDE gas step leaves the self-destructed
set unchanged. -/
theorem suicideRefundGasStep_suicided (t : TxState) (b : Nat) :
    (suicideRefundGasStep t b).suicided = t.suicided := by
  unfold suicideRefundGasStep
  split <;> rfl

/-- After a completed SUICIDE step of contract `b`, a contract is marked
as self-destructed iff it is `b` or was already marked. -/
theorem hasSuicided_suicideStep (t : TxState) (a b : Nat) :
    (suicideStep t b).hasSuicided a =
      (if a = b then true else t.hasSuicided a) := by
  unfold suicideStep opSuicideMark TxState.hasSuicided
  rw [show (suicideRefundGasStep t b).suicided = t.suicided from
    suicideRefundGasStep_suicided t b]
  simp [hasSuicidedList]

/-- A completed SUICIDE step of contract `b` adds 24000 to the refund
counter exactly when `b` was not yet marked as self-destructed. -/
theorem suicideStep_refund (t : TxState) (b : Nat) :
    (suicideStep t b).refund =
      (if t.hasSuicided b then t.refund else t.refund + 24000) := by
  unfold suicideStep opSuicideMark suicideRefundGasStep
  split <;> rfl

/-- A contract already marked as self-destructed is never granted a
refund by any later SUICIDE step of the transaction. -/
theorem not_mem_refundGrants (t : TxState) (l : List Nat) (a : Nat)
    (h : t.hasSuicided a = true) : a ∉ refundGrants t l := by
  induction l generalizing t with
  | nil => simp [refundGrants]
  | cons b rest ih =>
      simp only [refundGrants, List.mem_append]
      rintro (h1 | h2)
      · by_cases hb : t.hasSuicided b
        · simp [hb] at h1
        · simp [hb] at h1
          subst h1
          exact absurd h (by simp [hb])
      · have hm : (suicideStep t b).hasSuicided a = true := by
          rw [hasSuicided_suicideStep]
          split <;> simp [h]
        exact absurd h2 (ih _ hm)

/-- The 24000 SUICIDE refund is granted at most once per contract over
a transaction trace. -/
theorem refundGrants_count_le_one (t : TxState) (l : List Nat) (a : Nat) :
    (refundGrants t l).count a ≤ 1 := by
  induction l generalizing t with
  | nil => simp [refundGrants]
  | cons b rest ih =>
      simp only [refundGrants]
      rw [List.count_append]
      by_cases hb : t.hasSuicided b
      · simpa [hb] using ih (suicideStep t b)
      · simp only [hb, if_neg]
        by_cases hab : a = b
        · subst hab
          have hz : (refundGrants (suicideStep t a) rest).count a = 0 := by
            refine List.count_eq_zero.mpr (not_mem_refundGrants _ _ _ ?_)
            rw [hasSuicided_suicideStep]
            simp
          simp [hb, hz, List.count_cons]
        · have : ([b] : List Nat).count a = 0 := by
            simp [List.count_cons, hab]
          simpa [hb, this] using ih (suicideStep t b)

/-- The first SUICIDE of a not-yet-self-destructed contract in a trace
grants the refund. -/
theorem mem_refundGrants_of_first (t : TxState) (l : List Nat) (a : Nat)
    (hns : t.hasSuicided a = false) (hmem : a ∈ l) :
    a ∈ refundGrants t l := by
  induction l generalizing t with
  | nil => simp at hmem
  | cons b rest ih =>
      simp only [refundGrants, List.mem_append]
      by_cases hab : a = b
      · subst hab
        left
        simp [hns]
      · rcases List.mem_cons.mp hmem with h | h
        · exact absurd h hab
        · right
          refine ih _ ?_ h
          rw [hasSuicided_suicideStep]
          simp [hab, hns]

/-- Refund bookkeeping of a transaction trace: the final refund counter
is the initial one plus 24000 for each granted contract. -/
theorem runSuicides_refund (t : TxState) (l : List Nat) :
    (runSuicides t l).refund =
      t.refund + 24000 * (refundGrants t l).length := by
  induction l generalizing t with
  | nil => simp [runSuicides, refundGrants]
  | cons b rest ih =>
      simp only [runSuicides, refundGrants, List.length_append]
      rw [ih]
      by_cases hb : t.hasSuicided b
      · simp [hb, suicideStep_refund]
      · simp [hb, suicideStep_refund]
        ring

/-- Claim C8: the 24000 SELFDESTRUCT refund is added at most once per
contract and per transaction — over any trace of completed SUICIDE
steps, the refund counter grows by exactly 24000 per granted contract,
the first SUICIDE of a contract that has not already self-destructed
grants its refund, and no contract is granted the refund twice. -/
theorem c8_suicide_refund_once (t : TxState) (l : List Nat) (a : Nat) :
    (runSuicides t l).refund =
      t.refund + 24000 * (refundGrants t l).length ∧
    (t.hasSuicided a = false → a ∈ l → a ∈ refundGrants t l) ∧
    (refundGrants t l).count a ≤ 1 :=
  ⟨runSuicides_refund t l,
    fun h1 h2 => mem_refundGrants_of_first t l a h1 h2,
    refundGrants_count_le_one t l a⟩

/-- Witness for C8: a transaction in which contract 7 self-destructs
twice grants the refund exactly once. -/
theorem c8_suicide_refund_once_witness :
    (runSuicides ⟨[], 0⟩ [7, 7]).refund =
      0 + 24000 * (refundGrants ⟨[], 0⟩ [7, 7]).length ∧
    7 ∈ refundGrants ⟨[], 0⟩ [7, 7] ∧
    (refundGrants ⟨[], 0⟩ [7, 7]).count 7 ≤ 1 := by
  have h := c8_suicide_refund_once ⟨[], 0⟩ [7, 7] 7
  exact ⟨h.1, h.2.1 rfl (by decide), h.2.2⟩

/-- Claim C9 fails on the code: after a returning opcode the loop stores
the frame's named return value into the return-data buffer
(src/core/vm/vm.go lines 208-210), and that value is still nil at every
point inside the loop, so the buffer ends up empty rather than holding
the opcode's output bytes — here a CALL whose nested frame returns the
single byte 1 leaves the buffer empty. -/
theorem c9_return_data_nil :
    Op.isReturning Op.CALL = true ∧
    (step [1] callFrame).state.returnData = [] ∧
    ¬ (step [1] callFrame).state.returnData = [1] := by
  refine ⟨rfl, by decide, by decide⟩

end EVM
